import Mathlib

/-
Verification of the task-registration and dispatch subsystem of `sea/cli.py`.

The embedding models:
  * `TaskOption`            — class TaskOption (args, kwargs);
  * `PyState`               — the process state: a heap of function objects
                              (functions carry an optional `opts` attribute,
                              as set by `TaskManager.option`) together with
                              the global `taskm.tasks` dict (name → heap id);
  * `task_wrapper`          — the inner wrapper of TaskManager.task;
  * `option_wrapper`        — the inner wrapper of TaskManager.option;
  * `buildParser/parseArgs` — argparse.ArgumentParser/add_argument/parse_args,
                              modelled from argparse's documented contract for
                              optional (flag) arguments: exact flag matching,
                              store / store_true actions, required, default,
                              dest derivation, unrecognized-argument errors
                              (raised as SystemExit by argparse);
  * `invoke`                — lines 190-194 of TaskCmd.run: registry lookup,
                              per-invocation parser construction, parsing and
                              the keyword-argument call of the task, plus an
                              event trace recording what the dispatcher did;
  * `load_app_tasks`        — TaskCmd._load_app_tasks: os.listdir over
                              <root_path>/tasks, filtering of `.py` regular
                              files other than `__init__.py`, sequential
                              module loading via import_string with a trace of
                              the loaded module paths (os.listdir is
                              non-recursive, so the model lists only direct
                              entries of the directory);
  * `load_plugin_tasks`     — TaskCmd._load_plugin_tasks: sequential loading
                              of the `sea.tasks` entry points;
  * `runDiscovery`/`TaskCmd_run` — the discovery-then-dispatch pipeline of
                              TaskCmd.run.
Python dicts keep one binding per key; `dictInsert` therefore replaces the
binding of an existing key in place and appends a fresh key at the end.
Exceptions are modelled with `Except`: KeyError (the spec's TaskNotFound),
SystemExit (argparse parse failure), FileNotFoundError (os.listdir on a
missing directory) and arbitrary exceptions raised by task or module code.
-/

namespace Sea

/-- Python values exchanged with task callables: None, booleans, strings. -/
inductive PyVal
  | vNone
  | vBool (b : Bool)
  | vStr (s : String)
deriving DecidableEq, Repr

/-- Exceptions of the embedded fragment: KeyError from `self.tasks[name]`
(the spec's TaskNotFound), SystemExit from an argparse parse failure,
FileNotFoundError from os.listdir, and any exception raised by user code
(a task callable or a loaded module). -/
inductive PyErr
  | keyError (key : String)
  | systemExit (msg : String)
  | fileNotFound (path : String)
  | user (v : PyVal)
deriving DecidableEq, Repr

/-- Argparse actions used by task options: store a value, or store True. -/
inductive ArgAction
  | store
  | store_true
deriving DecidableEq, Repr

/-- Keyword configuration of one add_argument call (the `kwargs` of a
TaskOption): required-ness, default, action, explicit dest, help text. -/
structure OptKwargs where
  required : Bool
  default : Option PyVal
  action : ArgAction
  dest : Option String
  help : Option String
deriving DecidableEq, Repr

/-- Class TaskOption of cli.py: the positional `args` (flag spellings) and
`kwargs` of one option declaration, stored verbatim. -/
structure TaskOption where
  args : List String
  kwargs : OptKwargs
deriving DecidableEq, Repr

/-- Python function object: its behavior under a keyword-argument call
(which may raise), and its optional `opts` attribute, absent until
`TaskManager.option` first attaches it. -/
structure FuncObj where
  call : List (String × PyVal) → Except PyErr PyVal
  opts : Option (List TaskOption)

/-- Process state: the heap of function objects (a function is referred to
by its index, mirroring Python object identity) and the global
`taskm.tasks` dict mapping task names to function objects. -/
structure PyState where
  funcs : List FuncObj
  tasks : List (String × Nat)

/-- Python dict assignment `d[k] = v`: replaces the binding of an existing
key in place, otherwise appends the new binding at the end. -/
def dictInsert : List (String × Nat) → String → Nat → List (String × Nat)
  | [], k, v => [(k, v)]
  | p :: rest, k, v => if p.1 = k then (k, v) :: rest else p :: dictInsert rest k v

/-- Python dict lookup `d[k]` as an Option (none models KeyError). -/
def dictGet : List (String × Nat) → String → Option Nat
  | [], _ => none
  | p :: rest, k => if p.1 = k then some p.2 else dictGet rest k

/-- Number of bindings a dict holds for a given key. -/
def countKey : List (String × Nat) → String → Nat
  | [], _ => 0
  | p :: rest, k => (if p.1 = k then 1 else 0) + countKey rest k

/-- Well-formedness of a Python dict: one binding per key. -/
def keysNodup (d : List (String × Nat)) : Prop :=
  (d.map Prod.fst).Nodup

/-- Attribute read `getattr(func, 'opts', [])` on the function object with
heap id `fid`. -/
def getOpts (s : PyState) (fid : Nat) : List TaskOption :=
  match s.funcs[fid]? with
  | some f => f.opts.getD []
  | none => []

/-- Inner wrapper of TaskManager.task: stores `self.tasks[name] = func` and
returns the function unchanged. -/
def task_wrapper (name : String) (fid : Nat) (s : PyState) : PyState × Nat :=
  ({ s with tasks := dictInsert s.tasks name fid }, fid)

/-- Inner wrapper of TaskManager.option: appends one TaskOption to the
function object's `opts` attribute (creating the attribute on first use)
and returns the function unchanged. -/
def option_wrapper (args : List String) (kw : OptKwargs) (fid : Nat) (s : PyState) :
    PyState × Nat :=
  match s.funcs[fid]? with
  | some f =>
      ({ s with
          funcs := s.funcs.set fid ⟨f.call, some (f.opts.getD [] ++ [⟨args, kw⟩])⟩ },
       fid)
  | none => (s, fid)

/-- Application of a stack of option declarations written directly on a
function definition, listed in source textual order (outermost first):
the decorator nearest the function runs first, so the tail of the list is
applied before its head. -/
def applyOptionStack : List (List String × OptKwargs) → Nat → PyState → PyState × Nat
  | [], fid, s => (s, fid)
  | d :: rest, fid, s =>
      let r := applyOptionStack rest fid s
      option_wrapper d.1 d.2 r.2 r.1

/-- TaskOption built from one declaration in an option stack. -/
def mkOpt (d : List String × OptKwargs) : TaskOption :=
  ⟨d.1, d.2⟩

/-- Character-level test that `t` is a suffix of `s`, modelling Python's
`str.endswith`. -/
def strEndsWith (s t : String) : Bool :=
  t.toList.isSuffixOf s.toList

/-- Character-level test that `t` is a prefix of `s`, modelling Python's
`str.startswith`. -/
def strStartsWith (s t : String) : Bool :=
  t.toList.isPrefixOf s.toList

/-- Character-level `str.replace('-', '_')` performed by argparse on a
derived dest name. -/
def dashesToUnderscores (s : String) : String :=
  String.mk (s.toList.map (fun c => if c = '-' then '_' else c))

/-- Drop the leading dashes of an option string, as argparse does when it
derives a dest name from a flag spelling. -/
def stripDashes (s : String) : String :=
  String.mk (s.toList.dropWhile (fun c => c = '-'))

/-- Argparse dest derivation: an explicit `dest` wins; otherwise the first
long option string, else the first option string, with leading dashes
removed and remaining dashes turned into underscores. -/
def pyDest (o : TaskOption) : String :=
  match o.kwargs.dest with
  | some d => d
  | none =>
      let base :=
        match o.args.find? (fun a => strStartsWith a "--") with
        | some l => l
        | none => o.args.headD ""
      dashesToUnderscores (stripDashes base)

/-- Default value argparse stores when a flag is not supplied: the declared
default if any, else False for store_true and None for store. -/
def effectiveDefault (o : TaskOption) : PyVal :=
  match o.kwargs.default with
  | some v => v
  | none =>
      match o.kwargs.action with
      | .store_true => .vBool false
      | .store => .vNone

/-- Namespace attribute assignment: replace the binding of an existing dest
in place, otherwise append it. -/
def nsSet (ns : List (String × PyVal)) (k : String) (v : PyVal) :
    List (String × PyVal) :=
  if ns.any (fun p => p.1 = k) then ns.map (fun p => if p.1 = k then (k, v) else p)
  else ns ++ [(k, v)]

/-- First registered option one of whose flag spellings is the given token. -/
def findSpec (specs : List TaskOption) (tok : String) : Option TaskOption :=
  specs.find? (fun o => o.args.contains tok)

/-- The per-invocation parser of TaskCmd.run: its program name and the
options registered onto it by add_argument, in registration order. -/
structure ArgumentParser where
  prog : String
  specs : List TaskOption

/-- Parser method add_argument: appends one option to the parser. -/
def addArgument (p : ArgumentParser) (o : TaskOption) : ArgumentParser :=
  ⟨p.prog, p.specs ++ [o]⟩

/-- Lines 192-193 of cli.py: `argparse.ArgumentParser('seatask')` followed by
one add_argument call per stored TaskOption, in the stored order. -/
def buildParser (opts : List TaskOption) : ArgumentParser :=
  opts.foldl addArgument ⟨"seatask", []⟩

/-- Token scan of parse_args: each token must match a registered flag
spelling exactly (an unmatched token is an unrecognized-arguments error); a
store flag consumes the following token as its value, a store_true flag
stores True. -/
def parseLoop (specs : List TaskOption) :
    List String → List (String × PyVal) → Except String (List (String × PyVal))
  | [], ns => .ok ns
  | t :: rest, ns =>
      match findSpec specs t with
      | none => .error ("unrecognized arguments: " ++ t)
      | some o =>
          match o.kwargs.action with
          | .store_true => parseLoop specs rest (nsSet ns (pyDest o) (.vBool true))
          | .store =>
              match rest with
              | [] => .error ("argument " ++ t ++ ": expected one argument")
              | v :: rest2 => parseLoop specs rest2 (nsSet ns (pyDest o) (.vStr v))

/-- After the token scan: a required option that was never seen is an
error; any other unseen option receives its default value. -/
def fillDefaults (ns : List (String × PyVal)) :
    List TaskOption → Except String (List (String × PyVal))
  | [] => .ok ns
  | o :: rest =>
      if ns.any (fun p => p.1 = pyDest o) then fillDefaults ns rest
      else if o.kwargs.required then
        .error ("the following arguments are required: " ++ pyDest o)
      else fillDefaults (nsSet ns (pyDest o) (effectiveDefault o)) rest

/-- Method parse_args of the per-task parser, returning `vars(namespace)`:
the dest-to-value bindings the task is called with. -/
def parseArgs (p : ArgumentParser) (tokens : List String) :
    Except String (List (String × PyVal)) :=
  match parseLoop p.specs tokens [] with
  | .error e => .error e
  | .ok ns => fillDefaults ns p.specs

/-- Observable dispatcher events: the parser was constructed, parsing of the
extra tokens was attempted, the task callable was called with the given
keyword arguments. -/
inductive Ev
  | parserBuilt
  | parseAttempted
  | called (kwargs : List (String × PyVal))
deriving DecidableEq, Repr

/-- Keyword-argument lists of the call events of a trace, in order. -/
def callEvents : List Ev → List (List (String × PyVal))
  | [] => []
  | .called k :: r => k :: callEvents r
  | _ :: r => callEvents r

/-- Dispatcher: lines 190-194 of TaskCmd.run. Looks the task name up in the
global registry (KeyError when absent — before any parser exists), reads
`getattr(func, 'opts', [])`, builds the per-invocation parser, parses the
extra tokens (SystemExit on parse failure, task not called), then calls
`func(**vars(...))` once, its result or exception passed through. The
second component is the event trace. -/
def invoke (s : PyState) (name : String) (extra : List String) :
    Except PyErr PyVal × List Ev :=
  match dictGet s.tasks name with
  | none => (.error (.keyError name), [])
  | some fid =>
      match s.funcs[fid]? with
      | none => (.error (.keyError name), [])
      | some f =>
          let parser := buildParser (f.opts.getD [])
          match parseArgs parser extra with
          | .error e => (.error (.systemExit e), [.parserBuilt, .parseAttempted])
          | .ok ns => (f.call ns, [.parserBuilt, .parseAttempted, .called ns])

/-- Option list of the parser a dispatch of the given name would build:
the composition of registry lookup and parser construction in lines
190-193 of TaskCmd.run. -/
def dispatchSpecs (s : PyState) (name : String) : Option (List TaskOption) :=
  match dictGet s.tasks name with
  | none => none
  | some fid =>
      match s.funcs[fid]? with
      | none => none
      | some f => some (buildParser (f.opts.getD [])).specs

/-- One entry of a directory listing: its name and whether
`os.path.isfile` holds for it at the listed location. -/
structure DirEntry where
  name : String
  isFile : Bool
deriving DecidableEq, Repr

/-- Application handle: `create_app` result as the loader sees it — only its
`root_path` attribute is consumed. -/
structure App where
  root_path : String

/-- Line 169 of cli.py: `os.path.join(app.root_path, 'tasks')`. -/
def tasksRoot (app : App) : String :=
  app.root_path ++ "/tasks"

/-- Filter of lines 171-173: not the package initializer `__init__.py`, name
ends in `.py`, and the entry is a regular file. -/
def isTaskFile (e : DirEntry) : Bool :=
  e.name != "__init__.py" && strEndsWith e.name ".py" && e.isFile

/-- Module path `'tasks.' + m[:-3]` constructed on line 174 of cli.py. -/
def modulePath (m : String) : String :=
  "tasks." ++ m.dropRight 3

/-- Loop body of TaskCmd._load_app_tasks over the directory listing: each
qualifying entry is loaded as `tasks.<stem>` through the module
environment `env` (a module load mutates the process state or raises). The
second component records the module paths handed to import_string, in
order; a raised load error aborts the loop at once. -/
def load_app_tasks_go (env : String → PyState → Except PyErr PyState) :
    List DirEntry → PyState → Except PyErr PyState × List String
  | [], s => (.ok s, [])
  | e :: rest, s =>
      if isTaskFile e then
        match env (modulePath e.name) s with
        | .error err => (.error err, [modulePath e.name])
        | .ok s' =>
            let r := load_app_tasks_go env rest s'
            (r.1, modulePath e.name :: r.2)
      else load_app_tasks_go env rest s

/-- TaskCmd._load_app_tasks: `os.listdir` of `<root_path>/tasks` (the
filesystem `fs` maps a directory path to its listing, none when the
directory is missing, so listdir raises FileNotFoundError), then the
loading loop, then `return True`. -/
def load_app_tasks (env : String → PyState → Except PyErr PyState)
    (fs : String → Option (List DirEntry)) (app : App) (s : PyState) :
    Except PyErr (PyState × Bool) × List String :=
  match fs (tasksRoot app) with
  | none => (.error (.fileNotFound (tasksRoot app)), [])
  | some entries =>
      match load_app_tasks_go env entries s with
      | (.error e, tr) => (.error e, tr)
      | (.ok s', tr) => (.ok (s', true), tr)

/-- Sequential `ep.load()` loop of TaskCmd._load_plugin_tasks over the
`sea.tasks` entry points; a load failure propagates at once. -/
def loadEntryPoints :
    List (PyState → Except PyErr PyState) → PyState → Except PyErr PyState
  | [], s => .ok s
  | ep :: rest, s =>
      match ep s with
      | .error e => .error e
      | .ok s' => loadEntryPoints rest s'

/-- TaskCmd._load_plugin_tasks: load every entry point, then `return True`. -/
def load_plugin_tasks (eps : List (PyState → Except PyErr PyState))
    (s : PyState) : Except PyErr (PyState × Bool) :=
  match loadEntryPoints eps s with
  | .error e => .error e
  | .ok s' => .ok (s', true)

/-- Discovery phase of TaskCmd.run, lines 186-189: plugin tasks first, then
application tasks, in that fixed order. -/
def runDiscovery (eps : List (PyState → Except PyErr PyState))
    (env : String → PyState → Except PyErr PyState)
    (fs : String → Option (List DirEntry)) (app : App) (s : PyState) :
    Except PyErr PyState :=
  match load_plugin_tasks eps s with
  | .error e => .error e
  | .ok r1 =>
      match (load_app_tasks env fs app r1.1).1 with
      | .error e => .error e
      | .ok r2 => .ok r2.1

/-- TaskCmd.run: discovery (plugins then application tasks), then dispatch
of the requested task against the populated registry. -/
def TaskCmd_run (eps : List (PyState → Except PyErr PyState))
    (env : String → PyState → Except PyErr PyState)
    (fs : String → Option (List DirEntry)) (app : App) (s : PyState)
    (taskName : String) (extra : List String) : Except PyErr PyVal × List Ev :=
  match runDiscovery eps env fs app s with
  | .error e => (.error e, [])
  | .ok s2 => invoke s2 taskName extra

/-- Concrete task callable for the concrete evaluations: ignores its
keyword arguments and returns the string "done"; no opts attribute. -/
def doneFunc : FuncObj :=
  ⟨fun _ => .ok (.vStr "done"), none⟩

/-- Concrete keyword configuration: a plain optional store argument. -/
def plainKw : OptKwargs :=
  ⟨false, none, .store, none, none⟩

/-- Concrete task callable carrying one declared option `--x`. -/
def optFunc : FuncObj :=
  ⟨fun _ => .ok .vNone, some [⟨["--x"], plainKw⟩]⟩

/-- Concrete process state: `doneFunc` registered under the name "t". -/
def demoState : PyState :=
  ⟨[doneFunc], [("t", 0)]⟩

/-- Concrete state with two distinct function objects and no registrations. -/
def twoFuncState : PyState :=
  ⟨[doneFunc, optFunc], []⟩

/-- Concrete module environment: loading "tasks.bad" raises, every other
module load returns the state unchanged. -/
def demoEnv (path : String) (s : PyState) : Except PyErr PyState :=
  if path = "tasks.bad" then .error (.user (.vStr "boom")) else .ok s

/-- Concrete directory listing exercising every branch of the task-file
filter: the package initializer, a subdirectory, two task files, a
non-source file, and a directory whose name ends in `.py`. -/
def demoListing : List DirEntry :=
  [⟨"__init__.py", true⟩, ⟨"sub", false⟩, ⟨"a.py", true⟩,
   ⟨"notes.txt", true⟩, ⟨"dir.py", false⟩, ⟨"b.py", true⟩]

/-- Concrete filesystem whose only directory is `/a/tasks` with the demo
listing. -/
def demoFs (path : String) : Option (List DirEntry) :=
  if path = "/a/tasks" then some demoListing else none

/-- Concrete filesystem whose only directory is `/a/tasks`, empty. -/
def emptyDirFs (path : String) : Option (List DirEntry) :=
  if path = "/a/tasks" then some ([] : List DirEntry) else none

/-- Concrete filesystem with no directories at all. -/
def noDirFs (_ : String) : Option (List DirEntry) :=
  (none : Option (List DirEntry))

/-- Concrete filesystem whose only directory is `/a/tasks`, holding a bad
task file before a good one. -/
def badGoodFs (path : String) : Option (List DirEntry) :=
  if path = "/a/tasks" then some [⟨"bad.py", true⟩, ⟨"good.py", true⟩] else none

/-- Assigning a key into a dict makes lookup of that key return the new
value, whatever was there before. -/
theorem dictGet_dictInsert_self (d : List (String × Nat)) (k : String) (v : Nat) :
    dictGet (dictInsert d k v) k = some v := by
  induction d with
  | nil => simp [dictInsert, dictGet]
  | cons p rest ih =>
      by_cases h : p.1 = k
      · simp [dictInsert, dictGet, h]
      · simp [dictInsert, dictGet, h, ih]

/-- Keys that do not occur in a dict have zero bindings. -/
theorem countKey_eq_zero (d : List (String × Nat)) (k : String)
    (h : k ∉ d.map Prod.fst) : countKey d k = 0 := by
  induction d with
  | nil => rfl
  | cons p rest ih =>
      rw [List.map_cons, List.mem_cons] at h
      push_neg at h
      rw [countKey, if_neg (fun e => h.1 e.symm), ih h.2]

/-- Assigning a key into a well-formed dict leaves exactly one binding of
that key. -/
theorem countKey_dictInsert_self (d : List (String × Nat)) (k : String) (v : Nat)
    (h : keysNodup d) : countKey (dictInsert d k v) k = 1 := by
  induction d with
  | nil => simp [dictInsert, countKey]
  | cons p rest ih =>
      rw [keysNodup, List.map_cons, List.nodup_cons] at h
      by_cases hp : p.1 = k
      · rw [dictInsert, if_pos hp, countKey, if_pos rfl,
          countKey_eq_zero rest k (hp ▸ h.1)]
      · rw [dictInsert, if_neg hp, countKey, if_neg hp, ih h.2]

/-- Keys present after an assignment were present before, or are the
assigned key. -/
theorem mem_keys_dictInsert (d : List (String × Nat)) (k : String) (v : Nat)
    (x : String) (h : x ∈ (dictInsert d k v).map Prod.fst) :
    x ∈ d.map Prod.fst ∨ x = k := by
  induction d with
  | nil =>
      simp [dictInsert] at h
      exact Or.inr h
  | cons p rest ih =>
      by_cases hp : p.1 = k
      · rw [dictInsert, if_pos hp, List.map_cons, List.mem_cons] at h
        rcases h with h | h
        · exact Or.inr h
        · exact Or.inl (List.mem_cons_of_mem _ h)
      · rw [dictInsert, if_neg hp, List.map_cons, List.mem_cons] at h
        rcases h with h | h
        · exact Or.inl (h ▸ List.mem_cons_self _ _)
        · rcases ih h with h' | h'
          · exact Or.inl (List.mem_cons_of_mem _ h')
          · exact Or.inr h'

/-- Assignment preserves dict well-formedness. -/
theorem keysNodup_dictInsert (d : List (String × Nat)) (k : String) (v : Nat)
    (h : keysNodup d) : keysNodup (dictInsert d k v) := by
  induction d with
  | nil => simp [dictInsert, keysNodup]
  | cons p rest ih =>
      rw [keysNodup, List.map_cons, List.nodup_cons] at h
      by_cases hp : p.1 = k
      · rw [dictInsert, if_pos hp, keysNodup, List.map_cons, List.nodup_cons]
        exact ⟨hp ▸ h.1, h.2⟩
      · rw [dictInsert, if_neg hp, keysNodup, List.map_cons, List.nodup_cons]
        refine ⟨fun hm => ?_, ih h.2⟩
        rcases mem_keys_dictInsert rest k v p.1 hm with h' | h'
        · exact h.1 h'
        · exact hp h'

/-- Folding add_argument over a list of options appends them, in order, to
the options already registered on the parser. -/
theorem foldl_addArgument_specs (opts : List TaskOption) (p : ArgumentParser) :
    (opts.foldl addArgument p).specs = p.specs ++ opts := by
  induction opts generalizing p with
  | nil => simp
  | cons o rest ih =>
      rw [List.foldl_cons, ih]
      simp [addArgument]

/-- The per-invocation parser registers exactly the stored option sequence,
in the stored order. -/
theorem buildParser_specs (opts : List TaskOption) :
    (buildParser opts).specs = opts := by
  rw [buildParser, foldl_addArgument_specs]
  rfl

/-- The option wrapper returns the function it decorated. -/
theorem option_wrapper_snd (args : List String) (kw : OptKwargs) (fid : Nat)
    (s : PyState) : (option_wrapper args kw fid s).2 = fid := by
  unfold option_wrapper
  cases s.funcs[fid]? <;> rfl

/-- The option wrapper neither adds nor removes function objects. -/
theorem option_wrapper_funcs_length (args : List String) (kw : OptKwargs)
    (fid : Nat) (s : PyState) :
    (option_wrapper args kw fid s).1.funcs.length = s.funcs.length := by
  unfold option_wrapper
  cases s.funcs[fid]? <;> simp

/-- The option wrapper does not touch the task registry. -/
theorem option_wrapper_tasks (args : List String) (kw : OptKwargs) (fid : Nat)
    (s : PyState) : (option_wrapper args kw fid s).1.tasks = s.tasks := by
  unfold option_wrapper
  cases s.funcs[fid]? <;> rfl

/-- Effect of one option declaration on the decorated function's stored
option list: one TaskOption is appended. -/
theorem getOpts_option_wrapper (args : List String) (kw : OptKwargs) (fid : Nat)
    (s : PyState) (h : fid < s.funcs.length) :
    getOpts (option_wrapper args kw fid s).1 fid = getOpts s fid ++ [⟨args, kw⟩] := by
  have hf : s.funcs[fid]? = some s.funcs[fid] := List.getElem?_eq_getElem h
  unfold option_wrapper getOpts
  rw [hf]
  simp only [List.getElem?_set_eq_of_lt _ h, Option.getD_some]

/-- A stack of option declarations returns the decorated function. -/
theorem applyOptionStack_snd (decls : List (List String × OptKwargs)) (fid : Nat)
    (s : PyState) : (applyOptionStack decls fid s).2 = fid := by
  induction decls generalizing s with
  | nil => rfl
  | cons d rest ih =>
      rw [applyOptionStack, ih]
      exact option_wrapper_snd _ _ _ _

/-- A stack of option declarations neither adds nor removes function
objects. -/
theorem applyOptionStack_funcs_length (decls : List (List String × OptKwargs))
    (fid : Nat) (s : PyState) :
    (applyOptionStack decls fid s).1.funcs.length = s.funcs.length := by
  induction decls generalizing s with
  | nil => rfl
  | cons d rest ih =>
      rw [applyOptionStack, applyOptionStack_snd, option_wrapper_funcs_length, ih]

/-- Accumulated effect of a declaration stack on the function's stored
option list: the declarations are appended in reverse textual order. -/
theorem applyOptionStack_getOpts (decls : List (List String × OptKwargs))
    (fid : Nat) (s : PyState) (h : fid < s.funcs.length) :
    getOpts (applyOptionStack decls fid s).1 fid =
      getOpts s fid ++ (decls.map mkOpt).reverse := by
  induction decls generalizing s with
  | nil => simp [applyOptionStack]
  | cons d rest ih =>
      rw [applyOptionStack, applyOptionStack_snd]
      have hlen : fid < (applyOptionStack rest fid s).1.funcs.length := by
        rw [applyOptionStack_funcs_length]
        exact h
      rw [getOpts_option_wrapper _ _ _ _ hlen, ih s h]
      simp [mkOpt]

/-- Equation of the loading loop on a qualifying entry whose module load
succeeds. -/
theorem load_app_tasks_go_cons_ok (env : String → PyState → Except PyErr PyState)
    (e : DirEntry) (rest : List DirEntry) (s s' : PyState)
    (he : isTaskFile e = true) (henv : env (modulePath e.name) s = .ok s') :
    load_app_tasks_go env (e :: rest) s =
      ((load_app_tasks_go env rest s').1,
        modulePath e.name :: (load_app_tasks_go env rest s').2) := by
  rw [load_app_tasks_go, if_pos he, henv]

/-- Equation of the loading loop on a qualifying entry whose module load
raises. -/
theorem load_app_tasks_go_cons_err (env : String → PyState → Except PyErr PyState)
    (e : DirEntry) (rest : List DirEntry) (s : PyState) (err : PyErr)
    (he : isTaskFile e = true) (henv : env (modulePath e.name) s = .error err) :
    load_app_tasks_go env (e :: rest) s = (.error err, [modulePath e.name]) := by
  rw [load_app_tasks_go, if_pos he, henv]

/-- Equation of the loading loop on a skipped entry. -/
theorem load_app_tasks_go_cons_skip (env : String → PyState → Except PyErr PyState)
    (e : DirEntry) (rest : List DirEntry) (s : PyState)
    (he : ¬ isTaskFile e = true) :
    load_app_tasks_go env (e :: rest) s = load_app_tasks_go env rest s := by
  rw [load_app_tasks_go, if_neg he]

/-- When a leading segment of the listing loads without error, the loop on
the whole listing continues on the remaining segment from the reached
state, with the traces concatenated. -/
theorem load_app_tasks_go_append (env : String → PyState → Except PyErr PyState)
    (l1 l2 : List DirEntry) (s s1 : PyState) (t1 : List String)
    (h : load_app_tasks_go env l1 s = (.ok s1, t1)) :
    load_app_tasks_go env (l1 ++ l2) s =
      ((load_app_tasks_go env l2 s1).1, t1 ++ (load_app_tasks_go env l2 s1).2) := by
  induction l1 generalizing s t1 with
  | nil =>
      rw [load_app_tasks_go] at h
      obtain ⟨h1, h2⟩ := Prod.mk.injEq .. ▸ h
      obtain rfl : s = s1 := by exact Except.ok.inj h1
      subst h2
      simp
  | cons e rest ih =>
      by_cases he : isTaskFile e
      · cases henv : env (modulePath e.name) s with
        | error err =>
            rw [load_app_tasks_go_cons_err env e rest s err he henv] at h
            exact absurd (congrArg Prod.fst h) (by simp)
        | ok s' =>
            rw [load_app_tasks_go_cons_ok env e rest s s' he henv] at h
            obtain ⟨h1, h2⟩ := Prod.mk.injEq .. ▸ h
            cases hr : load_app_tasks_go env rest s' with
            | mk r1 r2 =>
                rw [hr] at h1 h2
                simp only at h1 h2
                subst h2
                rw [List.cons_append,
                  load_app_tasks_go_cons_ok env e (rest ++ l2) s s' he henv,
                  ih s' r2 (by rw [hr, h1])]
                simp
      · rw [load_app_tasks_go_cons_skip env e rest s he] at h
        rw [List.cons_append, load_app_tasks_go_cons_skip env e (rest ++ l2) s he]
        exact ih s t1 h

/-- When the loop runs to completion without error, its trace is exactly
the qualifying entries in listing order, mapped to their module paths. -/
theorem load_app_tasks_go_trace_of_ok (env : String → PyState → Except PyErr PyState)
    (entries : List DirEntry) (s s' : PyState)
    (h : (load_app_tasks_go env entries s).1 = .ok s') :
    (load_app_tasks_go env entries s).2 =
      (entries.filter isTaskFile).map (fun e => modulePath e.name) := by
  induction entries generalizing s s' with
  | nil => rfl
  | cons e rest ih =>
      by_cases he : isTaskFile e
      · cases henv : env (modulePath e.name) s with
        | error err =>
            rw [load_app_tasks_go_cons_err env e rest s err he henv] at h
            exact absurd h (by simp)
        | ok s2 =>
            rw [load_app_tasks_go_cons_ok env e rest s s2 he henv] at h ⊢
            rw [List.filter_cons_of_pos he, List.map_cons, ih s2 s' h]
      · rw [load_app_tasks_go_cons_skip env e rest s he] at h ⊢
        rw [List.filter_cons_of_neg (by simpa using he), ih s s' h]

/-- C1: for every registered task whose extra tokens parse successfully
against the parser built from its option descriptors, the dispatcher calls
the task callable exactly once (one `called` event), passing the parsed
options as keyword arguments, and returns the callable's result; an
exception raised by the callable is returned as-is, with no wrapping or
suppression. -/
theorem invoke_calls_task_once (s : PyState) (name : String) (fid : Nat)
    (f : FuncObj) (extra : List String) (ns : List (String × PyVal))
    (hlook : dictGet s.tasks name = some fid)
    (hfun : s.funcs[fid]? = some f)
    (hparse : parseArgs (buildParser (f.opts.getD [])) extra = .ok ns) :
    invoke s name extra = (f.call ns, [.parserBuilt, .parseAttempted, .called ns]) ∧
    callEvents (invoke s name extra).2 = [ns] := by
  have h1 : invoke s name extra =
      (f.call ns, [.parserBuilt, .parseAttempted, .called ns]) := by
    simp only [invoke, hlook, hfun, hparse]
  exact ⟨h1, by rw [h1]; rfl⟩

/-- Witness for C1: the registered task "t" of the demo state, invoked with
no extra tokens, is called exactly once with the empty keyword binding and
its result "done" is returned. -/
theorem invoke_calls_task_once_witness :
    dictGet demoState.tasks "t" = some 0 ∧
    demoState.funcs[0]? = some doneFunc ∧
    parseArgs (buildParser (doneFunc.opts.getD [])) [] = .ok [] ∧
    (invoke demoState "t" [] =
      (doneFunc.call [], [.parserBuilt, .parseAttempted, .called []]) ∧
     callEvents (invoke demoState "t" []).2 = [[]]) := by
  exact ⟨rfl, rfl, rfl, invoke_calls_task_once demoState "t" 0 doneFunc [] [] rfl rfl rfl⟩

/-- C3: for every task name with no registry entry, the dispatcher fails
with the KeyError of `self.tasks[name]` (the spec's TaskNotFound), with an
empty event trace — no parser is built and no parsing is attempted — for
every value of the extra tokens. -/
theorem invoke_missing_task_not_found (s : PyState) (name : String)
    (extra : List String) (h : dictGet s.tasks name = none) :
    invoke s name extra = (.error (.keyError name), []) ∧
    Ev.parserBuilt ∉ (invoke s name extra).2 ∧
    Ev.parseAttempted ∉ (invoke s name extra).2 := by
  have h1 : invoke s name extra = (.error (.keyError name), []) := by
    unfold invoke
    rw [h]
  exact ⟨h1, by rw [h1]; simp, by rw [h1]; simp⟩

/-- Witness for C3: the demo state has no task "missing-task"; invoking it
with non-trivial extra tokens fails with the KeyError and an empty trace. -/
theorem invoke_missing_task_not_found_witness :
    dictGet demoState.tasks "missing-task" = none ∧
    (invoke demoState "missing-task" ["--x", "5"] =
      (.error (.keyError "missing-task"), []) ∧
     Ev.parserBuilt ∉ (invoke demoState "missing-task" ["--x", "5"]).2 ∧
     Ev.parseAttempted ∉ (invoke demoState "missing-task" ["--x", "5"]).2) := by
  exact ⟨rfl, invoke_missing_task_not_found demoState "missing-task" ["--x", "5"] rfl⟩

/-- C7: a registered task with zero declared option descriptors, invoked
with an empty extra list, succeeds and is called with no keyword
arguments; invoked with any non-empty extra list, the parse fails with an
unrecognized-argument SystemExit on the first token and the task is never
called. -/
theorem zero_options_dispatch (s : PyState) (name : String) (fid : Nat)
    (f : FuncObj) (hlook : dictGet s.tasks name = some fid)
    (hfun : s.funcs[fid]? = some f) (hopts : f.opts.getD [] = []) :
    (invoke s name [] = (f.call [], [.parserBuilt, .parseAttempted, .called []])) ∧
    (∀ (t : String) (r : List String),
      invoke s name (t :: r) =
        (.error (.systemExit ("unrecognized arguments: " ++ t)),
          [.parserBuilt, .parseAttempted]) ∧
      callEvents (invoke s name (t :: r)).2 = []) := by
  constructor
  · simp only [invoke, hlook, hfun, hopts]
    rfl
  · intro t r
    have h1 : invoke s name (t :: r) =
        (.error (.systemExit ("unrecognized arguments: " ++ t)),
          [.parserBuilt, .parseAttempted]) := by
      simp only [invoke, hlook, hfun, hopts]
      rfl
    exact ⟨h1, by rw [h1]; rfl⟩

/-- Witness for C7: the option-less task "t" of the demo state succeeds on
an empty extra list and fails with an unrecognized-argument error on
["--x"], without being called. -/
theorem zero_options_dispatch_witness :
    dictGet demoState.tasks "t" = some 0 ∧
    demoState.funcs[0]? = some doneFunc ∧
    doneFunc.opts.getD [] = [] ∧
    (invoke demoState "t" [] =
      (doneFunc.call [], [.parserBuilt, .parseAttempted, .called []])) ∧
    (invoke demoState "t" ["--x"] =
      (.error (.systemExit ("unrecognized arguments: " ++ "--x")),
        [.parserBuilt, .parseAttempted]) ∧
     callEvents (invoke demoState "t" ["--x"]).2 = []) := by
  have h := zero_options_dispatch demoState "t" 0 doneFunc rfl rfl rfl
  exact ⟨rfl, rfl, rfl, h.1, h.2 "--x" []⟩

/-- C2: registering two callables in turn under one name in a well-formed
registry leaves exactly one binding under that name — the second callable,
with no duplicate-name error — and a subsequent dispatch builds its parser
exactly from the option descriptors of the second callable. -/
theorem register_twice_second_wins (s : PyState) (n : String) (fid1 fid2 : Nat)
    (f2 : FuncObj) (hwf : keysNodup s.tasks) (hf2 : s.funcs[fid2]? = some f2) :
    countKey (task_wrapper n fid2 (task_wrapper n fid1 s).1).1.tasks n = 1 ∧
    dictGet (task_wrapper n fid2 (task_wrapper n fid1 s).1).1.tasks n = some fid2 ∧
    dispatchSpecs (task_wrapper n fid2 (task_wrapper n fid1 s).1).1 n =
      some (f2.opts.getD []) := by
  refine ⟨?_, ?_, ?_⟩
  · exact countKey_dictInsert_self _ n fid2 (keysNodup_dictInsert _ n fid1 hwf)
  · exact dictGet_dictInsert_self _ n fid2
  · simp only [dispatchSpecs, task_wrapper, dictGet_dictInsert_self, hf2,
      buildParser_specs]

/-- Witness for C2: registering function 0 then function 1 of the two-object
state under "build" leaves one binding, mapped to function 1, and dispatch
would use exactly function 1's single `--x` descriptor. -/
theorem register_twice_second_wins_witness :
    keysNodup twoFuncState.tasks ∧
    twoFuncState.funcs[1]? = some optFunc ∧
    (countKey (task_wrapper "build" 1 (task_wrapper "build" 0 twoFuncState).1).1.tasks
        "build" = 1 ∧
     dictGet (task_wrapper "build" 1 (task_wrapper "build" 0 twoFuncState).1).1.tasks
        "build" = some 1 ∧
     dispatchSpecs (task_wrapper "build" 1 (task_wrapper "build" 0 twoFuncState).1).1
        "build" = some (optFunc.opts.getD [])) := by
  have hwf : keysNodup twoFuncState.tasks := List.nodup_nil
  exact ⟨hwf, rfl, register_twice_second_wins twoFuncState "build" 0 1 optFunc hwf rfl⟩

/-- C6: a stack of option declarations written directly on a function in
source textual order (outermost first) stores the descriptors in reverse
textual order, returns the function itself, and the per-invocation parser
registers exactly that stored sequence in its order. -/
theorem stacked_options_reverse_order (decls : List (List String × OptKwargs))
    (fid : Nat) (s : PyState) (hlen : fid < s.funcs.length)
    (hfresh : getOpts s fid = []) :
    getOpts (applyOptionStack decls fid s).1 fid = (decls.map mkOpt).reverse ∧
    (applyOptionStack decls fid s).2 = fid ∧
    (buildParser (getOpts (applyOptionStack decls fid s).1 fid)).specs =
      (decls.map mkOpt).reverse := by
  have h1 : getOpts (applyOptionStack decls fid s).1 fid = (decls.map mkOpt).reverse := by
    rw [applyOptionStack_getOpts decls fid s hlen, hfresh]
    rfl
  exact ⟨h1, applyOptionStack_snd decls fid s, by rw [h1, buildParser_specs]⟩

/-- Witness for C6: stacking `--a` over `--b` on the fresh function 0 of the
demo state stores the descriptors in the order `--b`, `--a`. -/
theorem stacked_options_reverse_order_witness :
    0 < demoState.funcs.length ∧
    getOpts demoState 0 = [] ∧
    (getOpts (applyOptionStack [(["--a"], plainKw), (["--b"], plainKw)] 0 demoState).1 0 =
        ([(["--a"], plainKw), (["--b"], plainKw)].map mkOpt).reverse ∧
     (applyOptionStack [(["--a"], plainKw), (["--b"], plainKw)] 0 demoState).2 = 0 ∧
     (buildParser (getOpts
        (applyOptionStack [(["--a"], plainKw), (["--b"], plainKw)] 0 demoState).1 0)).specs =
        ([(["--a"], plainKw), (["--b"], plainKw)].map mkOpt).reverse) := by
  exact ⟨by decide, rfl,
    stacked_options_reverse_order [(["--a"], plainKw), (["--b"], plainKw)] 0 demoState
      (by decide) rfl⟩

/-- C9: the registration binder returns the decorated callable unchanged
(same heap object, heap untouched), and composing the task-registration
decorator with an option declaration in either order on the same callable
produces the same process state and the same returned callable — hence the
same registry entry, descriptor sequence and dispatch behavior. -/
theorem task_option_commute (s : PyState) (n : String) (args : List String)
    (kw : OptKwargs) (fid : Nat) :
    (task_wrapper n fid s).2 = fid ∧
    (task_wrapper n fid s).1.funcs = s.funcs ∧
    task_wrapper n (option_wrapper args kw fid s).2 (option_wrapper args kw fid s).1 =
      option_wrapper args kw (task_wrapper n fid s).2 (task_wrapper n fid s).1 := by
  refine ⟨rfl, rfl, ?_⟩
  cases h : s.funcs[fid]? with
  | none =>
      simp only [option_wrapper, task_wrapper, h]
  | some f =>
      simp only [option_wrapper, task_wrapper, h]

/-- C4: when a plugin entry point registers "build" (as function `p`)
during plugin loading and the application task file `build.py` registers
"build" (as function `a`) during application loading, the invoke command's
fixed order — plugins first, then application — leaves the lookup of
"build" resolving to the application-local function `a`, and the full run
dispatches against that registry. -/
theorem app_task_overrides_plugin (s : PyState) (p a : Nat) (app : App)
    (extra : List String) :
    ∃ s2 : PyState,
      runDiscovery [fun st => .ok (task_wrapper "build" p st).1]
          (fun path st => if path = modulePath "build.py"
            then .ok (task_wrapper "build" a st).1 else .ok st)
          (fun path => if path = tasksRoot app
            then some [⟨"build.py", true⟩] else none)
          app s = .ok s2 ∧
      dictGet s2.tasks "build" = some a ∧
      TaskCmd_run [fun st => .ok (task_wrapper "build" p st).1]
          (fun path st => if path = modulePath "build.py"
            then .ok (task_wrapper "build" a st).1 else .ok st)
          (fun path => if path = tasksRoot app
            then some [⟨"build.py", true⟩] else none)
          app s "build" extra = invoke s2 "build" extra := by
  have hfile : isTaskFile ⟨"build.py", true⟩ = true := by decide
  have hdisc : runDiscovery [fun st => .ok (task_wrapper "build" p st).1]
      (fun path st => if path = modulePath "build.py"
        then .ok (task_wrapper "build" a st).1 else .ok st)
      (fun path => if path = tasksRoot app
        then some [⟨"build.py", true⟩] else none)
      app s =
      .ok ⟨s.funcs, dictInsert (dictInsert s.tasks "build" p) "build" a⟩ := by
    simp [runDiscovery, load_plugin_tasks, loadEntryPoints, load_app_tasks,
      load_app_tasks_go, hfile, task_wrapper]
  refine ⟨⟨s.funcs, dictInsert (dictInsert s.tasks "build" p) "build" a⟩,
    hdisc, dictGet_dictInsert_self _ "build" a, ?_⟩
  simp only [TaskCmd_run, hdisc]

/-- C5: if an application task file raises while loading, the error
propagates out of the application-task loader at once: the loader's result
is exactly that error, the trace ends at the failing module, and no module
of a later entry appears in it. -/
theorem load_app_tasks_fail_fast (env : String → PyState → Except PyErr PyState)
    (fs : String → Option (List DirEntry)) (app : App) (s s1 : PyState)
    (epre : List DirEntry) (ebad : DirEntry) (epost : List DirEntry)
    (t1 : List String) (err : PyErr)
    (hfs : fs (tasksRoot app) = some (epre ++ ebad :: epost))
    (hpre : load_app_tasks_go env epre s = (.ok s1, t1))
    (hbad : isTaskFile ebad = true)
    (herr : env (modulePath ebad.name) s1 = .error err) :
    load_app_tasks env fs app s = (.error err, t1 ++ [modulePath ebad.name]) ∧
    ∀ e ∈ epost, modulePath e.name ∉ t1 ++ [modulePath ebad.name] →
      modulePath e.name ∉ (load_app_tasks env fs app s).2 := by
  have hgo : load_app_tasks_go env (epre ++ ebad :: epost) s =
      (.error err, t1 ++ [modulePath ebad.name]) := by
    rw [load_app_tasks_go_append env epre (ebad :: epost) s s1 t1 hpre,
      load_app_tasks_go_cons_err env ebad epost s1 err hbad herr]
  have h1 : load_app_tasks env fs app s =
      (.error err, t1 ++ [modulePath ebad.name]) := by
    simp only [load_app_tasks, hfs, hgo]
  refine ⟨h1, ?_⟩
  intro e _ hmem
  rw [h1]
  exact hmem

/-- Witness for C5: with `bad.py` before `good.py` in `/a/tasks` and a
module environment where loading "tasks.bad" raises, the loader fails with
that error having loaded only "tasks.bad". -/
theorem load_app_tasks_fail_fast_witness :
    badGoodFs (tasksRoot ⟨"/a"⟩) = some ([] ++ ⟨"bad.py", true⟩ :: [⟨"good.py", true⟩]) ∧
    load_app_tasks_go demoEnv [] demoState = (.ok demoState, []) ∧
    isTaskFile ⟨"bad.py", true⟩ = true ∧
    demoEnv (modulePath (DirEntry.mk "bad.py" true).name) demoState =
      .error (.user (.vStr "boom")) ∧
    load_app_tasks demoEnv badGoodFs ⟨"/a"⟩ demoState =
      (.error (.user (.vStr "boom")), [] ++ [modulePath (DirEntry.mk "bad.py" true).name]) := by
  exact ⟨rfl, rfl, by decide, rfl,
    (load_app_tasks_fail_fast demoEnv badGoodFs ⟨"/a"⟩ demoState demoState
      [] ⟨"bad.py", true⟩ [⟨"good.py", true⟩] [] (.user (.vStr "boom"))
      rfl rfl (by decide) rfl).1⟩

/-- C8: a run of the application-task loader that returns success has
loaded exactly the directory entries that pass the task-file filter — a
regular file, name ending in `.py`, not `__init__.py` — in listing order,
each as module `tasks.<stem>`, and nothing else (the listing holds only
the direct entries of the directory, so nothing below a subdirectory is
reached). -/
theorem load_app_tasks_imports_exactly (env : String → PyState → Except PyErr PyState)
    (fs : String → Option (List DirEntry)) (app : App) (s : PyState)
    (entries : List DirEntry) (r : PyState × Bool)
    (hfs : fs (tasksRoot app) = some entries)
    (hok : (load_app_tasks env fs app s).1 = .ok r) :
    (load_app_tasks env fs app s).2 =
      (entries.filter isTaskFile).map (fun e => modulePath e.name) := by
  have hload : load_app_tasks env fs app s =
      (match load_app_tasks_go env entries s with
        | (.error e, tr) => (.error e, tr)
        | (.ok s', tr) => (.ok (s', true), tr)) := by
    simp only [load_app_tasks, hfs]
  cases hgo : load_app_tasks_go env entries s with
  | mk res tr =>
      cases res with
      | error e =>
          rw [hload, hgo] at hok
          exact absurd hok (by simp)
      | ok s' =>
          rw [hload, hgo]
          have htr := load_app_tasks_go_trace_of_ok env entries s s' (by rw [hgo])
          rw [hgo] at htr
          exact htr

/-- Witness for C8: over the demo listing, the successful load imports
exactly `tasks.a` and `tasks.b`, skipping the initializer, the plain
subdirectory, the non-source file and the `.py`-named directory. -/
theorem load_app_tasks_imports_exactly_witness :
    demoFs (tasksRoot ⟨"/a"⟩) = some demoListing ∧
    (load_app_tasks demoEnv demoFs ⟨"/a"⟩ demoState).1 = .ok (demoState, true) ∧
    (load_app_tasks demoEnv demoFs ⟨"/a"⟩ demoState).2 =
      (demoListing.filter isTaskFile).map (fun e => modulePath e.name) := by
  exact ⟨rfl, rfl,
    load_app_tasks_imports_exactly demoEnv demoFs ⟨"/a"⟩ demoState demoListing
      (demoState, true) rfl rfl⟩

/-- C10: when the application tasks directory is missing the loader fails
with FileNotFoundError instead of succeeding with zero tasks; a
successful result implies the directory exists; and an existing empty
directory yields success with nothing loaded. -/
theorem load_app_tasks_missing_dir (env : String → PyState → Except PyErr PyState)
    (fs : String → Option (List DirEntry)) (app : App) (s : PyState) :
    (fs (tasksRoot app) = none →
      load_app_tasks env fs app s = (.error (.fileNotFound (tasksRoot app)), [])) ∧
    (∀ r : PyState × Bool, (load_app_tasks env fs app s).1 = .ok r →
      ∃ entries, fs (tasksRoot app) = some entries) ∧
    (fs (tasksRoot app) = some [] →
      load_app_tasks env fs app s = (.ok (s, true), [])) := by
  refine ⟨?_, ?_, ?_⟩
  · intro h
    simp only [load_app_tasks, h]
  · intro r hok
    cases hfs : fs (tasksRoot app) with
    | none =>
        simp only [load_app_tasks, hfs] at hok
        exact absurd hok (by simp)
    | some entries => exact ⟨entries, rfl⟩
  · intro h
    simp only [load_app_tasks, h, load_app_tasks_go]

/-- Witness for C10: with no directory at all the loader raises
FileNotFoundError for `/a/tasks`; with an existing empty `/a/tasks` it
succeeds, returns True and loads nothing. -/
theorem load_app_tasks_missing_dir_witness :
    load_app_tasks demoEnv noDirFs ⟨"/a"⟩ demoState =
      (.error (.fileNotFound (tasksRoot ⟨"/a"⟩)), []) ∧
    load_app_tasks demoEnv emptyDirFs ⟨"/a"⟩ demoState =
      (.ok (demoState, true), []) := by
  exact ⟨(load_app_tasks_missing_dir demoEnv noDirFs ⟨"/a"⟩ demoState).1 rfl,
    (load_app_tasks_missing_dir demoEnv emptyDirFs ⟨"/a"⟩ demoState).2.2 rfl⟩

end Sea
